import Mathlib

/-!
# String-constant containment check (`main.go`)

A shallow embedding of the Go program that decides whether the memory of one
string lies inside the memory of another by comparing the two string headers.

* A `uintptr` is a natural number below `2 ^ w`, where `w` is the word size in
  bits; `uintptr` addition is written with an explicit `% 2 ^ w`.
* A Go `string` is its start address together with the bytes it views; the
  `reflect.StringHeader` overlay exposes the address and the length.
* Package-level variables are a record that is passed explicitly.
-/

namespace StringConst

/-! ## Data model -/

/-- Mirror of `reflect.StringHeader`: `Data uintptr; Len int`. -/
structure StringHeader where
  Data : Nat
  Len : Int
deriving DecidableEq

/-- A Go `string` value: the address of its first byte and the bytes viewed. -/
structure GoString where
  Data : Nat
  bytes : List UInt8
deriving DecidableEq

/-- Go's `len(s)`, an `int`. -/
def GoString.len (s : GoString) : Int := (s.bytes.length : Int)

/-- The overlay `(*reflect.StringHeader)(unsafe.Pointer(&s))`. -/
def GoString.header (s : GoString) : StringHeader := ⟨s.Data, s.len⟩

/-- A string is well formed for word size `w` when its address is a `uintptr`
and its length is a non-negative `int`. -/
def GoString.WF (w : Nat) (s : GoString) : Prop :=
  s.Data < 2 ^ w ∧ s.bytes.length < 2 ^ (w - 1)

instance (w : Nat) (s : GoString) : Decidable (s.WF w) := by
  unfold GoString.WF; exact inferInstance

/-- The bytes of a string literal (its UTF-8 encoding). -/
def bytesOf (s : String) : List UInt8 := s.data.flatMap String.utf8EncodeChar

/-! ## Machine-word arithmetic -/

/-- The conversion `uintptr(x)` of an `int` at word size `w`. -/
def uintptrOfInt (w : Nat) (x : Int) : Nat := (x % (2 : Int) ^ w).toNat

/-- Addition of two `uintptr` values at word size `w`. -/
def uintptrAdd (w a b : Nat) : Nat := (a + b) % 2 ^ w

/-! ## The containment check -/

/-- `IsStringInside(outer, inner)` of `main.go`, at word size `w`. -/
def IsStringInside (w : Nat) (outer inner : GoString) : Bool :=
  let outerStringHeader := outer.header
  let innerStringHeader := inner.header
  decide (outerStringHeader.Data ≤ innerStringHeader.Data) &&
    decide (uintptrAdd w innerStringHeader.Data (uintptrOfInt w innerStringHeader.Len)
      ≤ uintptrAdd w outerStringHeader.Data (uintptrOfInt w outerStringHeader.Len))

/-- The end address of a view as `IsStringInside` computes it. -/
def endAddr (w : Nat) (s : GoString) : Nat :=
  uintptrAdd w s.header.Data (uintptrOfInt w s.header.Len)

/-- The containment relation of the data model, over exact integers. -/
def ExactInside (outer inner : GoString) : Prop :=
  outer.Data ≤ inner.Data ∧
    inner.Data + inner.bytes.length ≤ outer.Data + outer.bytes.length

instance (outer inner : GoString) : Decidable (ExactInside outer inner) := by
  unfold ExactInside; exact inferInstance

/-- The end address of a view does not overflow the machine word. -/
def NoOverflow (w : Nat) (s : GoString) : Prop :=
  s.Data + s.bytes.length < 2 ^ w

instance (w : Nat) (s : GoString) : Decidable (NoOverflow w s) := by
  unfold NoOverflow; exact inferInstance

/-- A view whose last byte is the last byte of a 64-bit address space. -/
def topOuter : GoString := ⟨2 ^ 64 - 4, [80, 105, 108, 108]⟩

/-- The first two bytes of `topOuter`. -/
def topInner : GoString := ⟨2 ^ 64 - 4, [80, 105]⟩

/-- The address `x` is one of the addresses `[s.start, s.start + s.length)`. -/
def InRange (s : GoString) (x : Nat) : Prop :=
  s.Data ≤ x ∧ x < s.Data + s.bytes.length

/-- The empty view at address `p`. -/
def emptyAt (p : Nat) : GoString := ⟨p, []⟩

/-! ## Views into a shared buffer, by offset -/

/-- A view into a buffer, given by its offset in the buffer and its length. -/
structure OffsetView where
  off : Nat
  len : Nat
deriving DecidableEq

/-- The offset-based containment check on two views of one buffer: the bounds
of `B` fall within the bounds of `A`. -/
def offsetInside (A B : OffsetView) : Bool :=
  decide (A.off ≤ B.off) && decide (B.off + B.len ≤ A.off + A.len)

/-- The string that views `v.len` bytes at offset `v.off` of the buffer `buf`
stored at base address `b`. -/
def viewAt (b : Nat) (buf : List UInt8) (v : OffsetView) : GoString :=
  ⟨b + v.off, (buf.drop v.off).take v.len⟩

/-! ## Setup: carving the named constants out of one string -/

/-- The slice expression `s[lo:hi]` on a string: the bytes `lo ..< hi` of `s`.
A non-empty result starts `lo` bytes after the start of `s`; an empty result
keeps the start address of `s`, so that it never points past the storage of
`s`. An index out of range is a run-time panic (`none`). -/
def slice (w : Nat) (s : GoString) (lo hi : Nat) : Option GoString :=
  if lo ≤ hi ∧ hi ≤ s.bytes.length then
    some ⟨if hi - lo = 0 then s.Data else uintptrAdd w s.Data lo,
      (s.bytes.drop lo).take (hi - lo)⟩
  else
    none

/-- Go's `type Pill int`. -/
abbrev Pill := Int

/-- First constant of the `iota` block. -/
def Placebo : Pill := 0

/-- Second constant of the `iota` block. -/
def Aspirin : Pill := 1

/-- Third constant of the `iota` block. -/
def Ibuprofen : Pill := 2

/-- Fourth constant of the `iota` block. -/
def Paracetamol : Pill := 3

/-- Fifth constant of the `iota` block. -/
def Acetaminophen : Pill := 4

/-- Modelled from the spec: the method `String` of `Pill`, which lives in the
generated file and is absent from the sources. It takes the sub-range
`_Pill_name[_Pill_index[p] : _Pill_index[p+1]]` of the shared table, as the
comment above `createConstStrings` describes; the table `Pill_name` and the
index `Pill_index` are parameters. A value outside the index is not covered
(`none`). -/
def Pill.String (w : Nat) (Pill_name : GoString) (Pill_index : List Nat) (p : Pill) :
    Option GoString :=
  if 0 ≤ p then
    match Pill_index[p.toNat]?, Pill_index[p.toNat + 1]? with
    | some lo, some hi => slice w Pill_name lo hi
    | _, _ => none
  else
    none

/-- The package-level variables of `main.go`. -/
structure Globals where
  constAll : GoString
  constPlacebo : GoString
  constAspirin : GoString
  constIbuprofen : GoString
  constParacetamol : GoString
  constAcetaminophen : GoString
deriving DecidableEq

/-- The zero value of a `string` variable. -/
def emptyString : GoString := ⟨0, []⟩

/-- The package-level variables before `main` runs. -/
def Globals.zero : Globals :=
  ⟨emptyString, emptyString, emptyString, emptyString, emptyString, emptyString⟩

/-- `createConstStrings()` of `main.go`, as a step on the package-level
variables; the generated table and index are parameters. -/
def createConstStrings (w : Nat) (Pill_name : GoString) (Pill_index : List Nat)
    (g : Globals) : Option Globals := do
  let g := { g with constAll := Pill_name }
  let g := { g with constPlacebo := ← Pill.String w Pill_name Pill_index Placebo }
  let g := { g with constAspirin := ← Pill.String w Pill_name Pill_index Aspirin }
  let g := { g with constIbuprofen := ← Pill.String w Pill_name Pill_index Ibuprofen }
  let g := { g with constParacetamol := ← Pill.String w Pill_name Pill_index Paracetamol }
  let g := { g with constAcetaminophen := ← Pill.String w Pill_name Pill_index Acetaminophen }
  pure g

/-- The string `"PlaceboAspirinIbuprofen"` stored at address `a`. -/
def Big (a : Nat) : GoString := ⟨a, bytesOf "PlaceboAspirinIbuprofen"⟩

/-- A table of five names stored at address `a`, with `pillIndex` as its index:
sample values for the two generated parameters of `createConstStrings`. -/
def pillTable (a : Nat) : GoString :=
  ⟨a, bytesOf "PlaceboAspirinIbuprofenParacetamolAcetaminophen"⟩

/-- The offsets at which the names of `pillTable` start and end. -/
def pillIndex : List Nat := [0, 7, 14, 23, 34, 47]

/-! ## Calls as steps on the program state -/

/-- The string variables a statement can name: the six package-level variables
and the two parameters of `IsStringInside`. -/
inductive Var where
  | constAll
  | constPlacebo
  | constAspirin
  | constIbuprofen
  | constParacetamol
  | constAcetaminophen
  | outer
  | inner
deriving DecidableEq

/-- The two local pointer variables of `IsStringInside`. -/
inductive PtrVar where
  | outerStringHeader
  | innerStringHeader
deriving DecidableEq

/-- The string variables during a call: the package-level variables and the
parameters of the call, which hold copies of the arguments. -/
structure Store where
  globals : Globals
  outer : GoString
  inner : GoString
deriving DecidableEq

/-- The value of a string variable. -/
def Store.read (st : Store) : Var → GoString
  | .constAll => st.globals.constAll
  | .constPlacebo => st.globals.constPlacebo
  | .constAspirin => st.globals.constAspirin
  | .constIbuprofen => st.globals.constIbuprofen
  | .constParacetamol => st.globals.constParacetamol
  | .constAcetaminophen => st.globals.constAcetaminophen
  | .outer => st.outer
  | .inner => st.inner

/-- Assignment of a string to a string variable. -/
def Store.write (st : Store) (v : Var) (x : GoString) : Store :=
  match v with
  | .constAll => { st with globals := { st.globals with constAll := x } }
  | .constPlacebo => { st with globals := { st.globals with constPlacebo := x } }
  | .constAspirin => { st with globals := { st.globals with constAspirin := x } }
  | .constIbuprofen => { st with globals := { st.globals with constIbuprofen := x } }
  | .constParacetamol => { st with globals := { st.globals with constParacetamol := x } }
  | .constAcetaminophen => { st with globals := { st.globals with constAcetaminophen := x } }
  | .outer => { st with outer := x }
  | .inner => { st with inner := x }

/-- The local pointer variables: the variable each one points to, `none` while
it is nil. -/
structure Pointers where
  outerStringHeader : Option Var
  innerStringHeader : Option Var

/-- The target of a pointer variable. -/
def Pointers.get (ps : Pointers) : PtrVar → Option Var
  | .outerStringHeader => ps.outerStringHeader
  | .innerStringHeader => ps.innerStringHeader

/-- Assignment to a pointer variable. -/
def Pointers.set (ps : Pointers) (p : PtrVar) (v : Var) : Pointers :=
  match p with
  | .outerStringHeader => { ps with outerStringHeader := some v }
  | .innerStringHeader => { ps with innerStringHeader := some v }

/-- Expressions of type `uintptr`: `p.Data`, `uintptr(p.Len)` and `a + b`. -/
inductive WordExpr where
  | data (p : PtrVar)
  | len (p : PtrVar)
  | add (a b : WordExpr)

/-- Expressions of type `bool`: `a <= b` and `a && b`. -/
inductive BoolExpr where
  | le (a b : WordExpr)
  | and (a b : BoolExpr)

/-- Statements: `p := (*reflect.StringHeader)(unsafe.Pointer(&v))`, the string
assignment `v = src`, and `return e`. -/
inductive Stmt where
  | headerOf (p : PtrVar) (v : Var)
  | assign (v src : Var)
  | ret (e : BoolExpr)

/-- The value of a `uintptr` expression; reading through a nil pointer is a
run-time panic (`none`). -/
def WordExpr.value (w : Nat) (st : Store) (ps : Pointers) : WordExpr → Option Nat
  | .data p => (ps.get p).map (fun v => (st.read v).header.Data)
  | .len p => (ps.get p).map (fun v => uintptrOfInt w (st.read v).header.Len)
  | .add a b =>
    match a.value w st ps, b.value w st ps with
    | some x, some y => some (uintptrAdd w x y)
    | _, _ => none

/-- The value of a `bool` expression; `&&` evaluates its right operand only
when the left one is true. -/
def BoolExpr.value (w : Nat) (st : Store) (ps : Pointers) : BoolExpr → Option Bool
  | .le a b =>
    match a.value w st ps, b.value w st ps with
    | some x, some y => some (decide (x ≤ y))
    | _, _ => none
  | .and a b =>
    match a.value w st ps with
    | some true => b.value w st ps
    | some false => some false
    | none => none

/-- Execution of a function body: the returned value and the string variables
at the return. A body that ends without `return` gives `none`. -/
def exec (w : Nat) : List Stmt → Store → Pointers → Option (Bool × Store)
  | [], _, _ => none
  | .headerOf p v :: rest, st, ps => exec w rest st (ps.set p v)
  | .assign v src :: rest, st, ps => exec w rest (st.write v (st.read src)) ps
  | .ret e :: _, st, ps => (e.value w st ps).map (fun r => (r, st))

/-- The body of `IsStringInside` (`main.go`, lines 71 to 78), statement by
statement. -/
def IsStringInsideBody : List Stmt :=
  [.headerOf .outerStringHeader .outer,
    .headerOf .innerStringHeader .inner,
    .ret (.and
      (.le (.data .outerStringHeader) (.data .innerStringHeader))
      (.le (.add (.data .innerStringHeader) (.len .innerStringHeader))
        (.add (.data .outerStringHeader) (.len .outerStringHeader))))]

/-- A call `IsStringInside(outer, inner)` as a step of the program: the
arguments are copied into the parameters, the body runs with both local
pointers nil, and the step gives the returned value and the package-level
variables after the call. -/
def IsStringInsideStep (w : Nat) (g : Globals) (outer inner : GoString) :
    Option (Bool × Globals) :=
  (exec w IsStringInsideBody ⟨g, outer, inner⟩ ⟨none, none⟩).map
    (fun r => (r.1, r.2.globals))

/-- A sequence of `IsStringInside` calls run one after the other, threading the
package-level variables through them. -/
def runChecks (w : Nat) : Globals → List (GoString × GoString) → Option (List Bool × Globals)
  | g, [] => some ([], g)
  | g, (outer, inner) :: rest =>
    (IsStringInsideStep w g outer inner).bind (fun step =>
      (runChecks w step.2 rest).map (fun tail => (step.1 :: tail.1, tail.2)))

/-! ## Formatted output -/

/-- Number of bytes that `utf8.RuneCountInString` consumes for the rune that
starts at the head of a non-empty string: 1 for an ASCII byte and for an
invalid or short encoding, otherwise the length of the encoding. -/
def runeStep : List UInt8 → Nat
  | [] => 0
  | c :: rest =>
    let c := c.toNat
    if c < 0x80 then 1
    else if c < 0xC2 then 1
    else if c < 0xE0 then
      match rest with
      | c1 :: _ => if 0x80 ≤ c1.toNat ∧ c1.toNat ≤ 0xBF then 2 else 1
      | _ => 1
    else if c < 0xF0 then
      let lo := if c = 0xE0 then 0xA0 else 0x80
      let hi := if c = 0xED then 0x9F else 0xBF
      match rest with
      | c1 :: c2 :: _ =>
        if c1.toNat < lo ∨ hi < c1.toNat then 1
        else if c2.toNat < 0x80 ∨ 0xBF < c2.toNat then 1
        else 3
      | _ => 1
    else if c < 0xF5 then
      let lo := if c = 0xF0 then 0x90 else 0x80
      let hi := if c = 0xF4 then 0x8F else 0xBF
      match rest with
      | c1 :: c2 :: c3 :: _ =>
        if c1.toNat < lo ∨ hi < c1.toNat then 1
        else if c2.toNat < 0x80 ∨ 0xBF < c2.toNat then 1
        else if c3.toNat < 0x80 ∨ 0xBF < c3.toNat then 1
        else 4
      | _ => 1
    else 1

/-- The loop of `utf8.RuneCountInString`: `skip` is the number of bytes still
to pass over before the next rune starts. -/
def runeCountFrom : Nat → List UInt8 → Nat
  | _, [] => 0
  | 0, c :: rest => 1 + runeCountFrom (runeStep (c :: rest) - 1) rest
  | skip + 1, _ :: rest => runeCountFrom skip rest

/-- Go's `utf8.RuneCountInString`. -/
def runeCount (s : List UInt8) : Nat := runeCountFrom 0 s

/-- An operand of `fmt.Printf`. -/
inductive Arg where
  | str (s : GoString)
  | bool (b : Bool)

/-- `fmt`'s `padString`: the string padded with spaces to `wid` runes, on the
right when the `-` flag is set; a string of `wid` runes or more is written as
it is. -/
def padString (minus : Bool) (wid : Option Nat) (s : List UInt8) : List UInt8 :=
  match wid with
  | none => s
  | some n =>
    let padding := List.replicate (n - runeCount s) (32 : UInt8)
    if minus then s ++ padding else padding ++ s

/-- `fmt`'s `fmtBoolean`. -/
def fmtBoolean (b : Bool) : List UInt8 := if b then bytesOf "true" else bytesOf "false"

/-- One verb of `fmt.Printf` applied to its operand: `%s` and `%v` on a string,
`%t` and `%v` on a bool. Other combinations are not covered (`none`). -/
def printVerb (minus : Bool) (wid : Option Nat) (verb : UInt8) (arg : Arg) :
    Option (List UInt8) :=
  match arg with
  | .str s => if verb = 115 ∨ verb = 118 then some (padString minus wid s.bytes) else none
  | .bool b => if verb = 116 ∨ verb = 118 then some (padString minus wid (fmtBoolean b)) else none

/-- Where `doPrintf` is in the format string: in literal text, after `%` and
its flags, or inside the digits of a width. -/
inductive FmtState where
  | text
  | flags (minus : Bool)
  | width (minus : Bool) (wid : Nat)

/-- The loop of `fmt`'s `doPrintf` for formats made of literal bytes and
verbs with an optional `-` flag and an optional width. Other flags, `*`,
precisions, argument indexes, a width above 1000000, a verb without operand
and operands without verb are not covered (`none`). -/
def doPrintf : FmtState → List UInt8 → List Arg → Option (List UInt8)
  | .text, [], [] => some []
  | .text, [], _ :: _ => none
  | .text, c :: rest, args =>
    if c = 37 then doPrintf (.flags false) rest args
    else (doPrintf .text rest args).map (fun out => c :: out)
  | .flags _, [], _ => none
  | .flags minus, c :: rest, args =>
    if c = 45 then doPrintf (.flags true) rest args
    else if 49 ≤ c.toNat ∧ c.toNat ≤ 57 then doPrintf (.width minus (c.toNat - 48)) rest args
    else
      match args with
      | [] => none
      | arg :: args =>
        (printVerb minus none c arg).bind
          (fun field => (doPrintf .text rest args).map (fun out => field ++ out))
  | .width _ _, [], _ => none
  | .width minus wid, c :: rest, args =>
    if 48 ≤ c.toNat ∧ c.toNat ≤ 57 then
      if 1000000 < wid * 10 + (c.toNat - 48) then none
      else doPrintf (.width minus (wid * 10 + (c.toNat - 48))) rest args
    else
      match args with
      | [] => none
      | arg :: args =>
        (printVerb minus (some wid) c arg).bind
          (fun field => (doPrintf .text rest args).map (fun out => field ++ out))

/-- `fmt.Printf(format, args...)`: the bytes written to standard output. -/
def Printf (format : String) (args : List Arg) : Option (List UInt8) :=
  doPrintf .text (bytesOf format) args

/-- The loop of `main` over `strlist`: one `Printf` per entry, appended to the
bytes already written. -/
def printChecks (w : Nat) (constAll : GoString) :
    List GoString → List UInt8 → Option (List UInt8)
  | [], out => some out
  | s :: rest, out =>
    (Printf "%-15s: %v\n" [.str s, .bool (IsStringInside w constAll s)]).bind
      (fun line => printChecks w constAll rest (out ++ line))

/-- `main()` of `main.go`: the bytes written to standard output and the
package-level variables at exit. The generated table and index and the
addresses of the two string literals are parameters. -/
def main (w : Nat) (Pill_name : GoString) (Pill_index : List Nat) (pennAddr tellerAddr : Nat)
    (g : Globals) : Option (List UInt8 × Globals) :=
  (createConstStrings w Pill_name Pill_index g).bind (fun g =>
    let strlist : List GoString := [
      ⟨pennAddr, bytesOf "Penn"⟩,
      ⟨tellerAddr, bytesOf "Teller"⟩,
      g.constAll,
      g.constPlacebo,
      g.constAspirin,
      g.constIbuprofen,
      g.constParacetamol,
      g.constAcetaminophen]
    (printChecks w g.constAll strlist []).map (fun out => (out, g)))


/-! ## Basic lemmas -/

theorem uintptrOfInt_natCast (w n : Nat) : uintptrOfInt w (n : Int) = n % 2 ^ w := by
  unfold uintptrOfInt
  have h : ((n : Int) % (2 : Int) ^ w) = ((n % 2 ^ w : Nat) : Int) := by
    push_cast; rfl
  rw [h, Int.toNat_ofNat]

theorem endAddr_eq (w : Nat) (s : GoString) :
    endAddr w s = (s.Data + s.bytes.length) % 2 ^ w := by
  simp [endAddr, GoString.header, GoString.len, uintptrAdd, uintptrOfInt_natCast]

theorem endAddr_of_noOverflow {w : Nat} {s : GoString} (h : NoOverflow w s) :
    endAddr w s = s.Data + s.bytes.length := by
  rw [endAddr_eq]; exact Nat.mod_eq_of_lt h

theorem IsStringInside_iff (w : Nat) (outer inner : GoString) :
    IsStringInside w outer inner = true ↔
      outer.Data ≤ inner.Data ∧ endAddr w inner ≤ endAddr w outer := by
  simp [IsStringInside, endAddr, GoString.header]

theorem slice_some {w : Nat} {s t : GoString} {lo hi : Nat}
    (h : slice w s lo hi = some t) :
    lo ≤ hi ∧ hi ≤ s.bytes.length ∧
      t.Data = (if hi - lo = 0 then s.Data else (s.Data + lo) % 2 ^ w) ∧
      t.bytes.length = hi - lo := by
  unfold slice at h
  split at h
  · rename_i hc
    injection h with h
    subst h
    refine ⟨hc.1, hc.2, rfl, ?_⟩
    simp only [List.length_take, List.length_drop]
    omega
  · exact absurd h (by simp)

theorem PillString_some {w : Nat} {name t : GoString} {idx : List Nat} {p : Pill}
    (h : Pill.String w name idx p = some t) :
    ∃ lo hi, slice w name lo hi = some t := by
  unfold Pill.String at h
  split at h
  · split at h
    · exact ⟨_, _, h⟩
    · exact absurd h (by simp)
  · exact absurd h (by simp)

theorem inside_of_slice {w : Nat} {s t : GoString} {lo hi : Nat}
    (hs : NoOverflow w s) (h : slice w s lo hi = some t) :
    IsStringInside w s t = true := by
  obtain ⟨h1, h2, h3, h4⟩ := slice_some h
  have hs2 : s.Data + s.bytes.length < 2 ^ w := hs
  have hmod : (s.Data + lo) % 2 ^ w = s.Data + lo := Nat.mod_eq_of_lt (by omega)
  rw [hmod] at h3
  have ht : NoOverflow w t := by
    unfold NoOverflow
    split at h3 <;> omega
  rw [IsStringInside_iff, endAddr_of_noOverflow hs, endAddr_of_noOverflow ht]
  split at h3 <;> omega

theorem createConstStrings_some {w : Nat} {name : GoString} {idx : List Nat}
    {g g2 : Globals} (h : createConstStrings w name idx g = some g2) :
    g2.constAll = name ∧
      Pill.String w name idx Placebo = some g2.constPlacebo ∧
      Pill.String w name idx Aspirin = some g2.constAspirin ∧
      Pill.String w name idx Ibuprofen = some g2.constIbuprofen ∧
      Pill.String w name idx Paracetamol = some g2.constParacetamol ∧
      Pill.String w name idx Acetaminophen = some g2.constAcetaminophen := by
  unfold createConstStrings at h
  simp only [bind, Option.bind_eq_some, pure] at h
  obtain ⟨s1, h1, s2, h2, s3, h3, s4, h4, s5, h5, hg⟩ := h
  injection hg with hg
  subst hg
  exact ⟨rfl, h1, h2, h3, h4, h5⟩

/-! ## Containment contract -/

/-- C1 (as stated, refuted): on 64-bit words the view `topOuter` ends at the
top of the address space, its prefix `topInner` satisfies the exact-integer
containment predicate, and `IsStringInside` nevertheless returns `false`. -/
theorem C1_exact_iff_fails_at_top :
    topOuter.WF 64 ∧ topInner.WF 64 ∧ ExactInside topOuter topInner ∧
      IsStringInside 64 topOuter topInner = false := by
  decide

/-- C1 (amended): for views whose end addresses do not overflow the machine
word, `IsStringInside outer inner` is true exactly when
`inner.start >= outer.start` and
`inner.start + inner.length <= outer.start + outer.length`. -/
theorem C1_inside_iff_exact (w : Nat) (outer inner : GoString)
    (ho : NoOverflow w outer) (hi : NoOverflow w inner) :
    IsStringInside w outer inner = true ↔ ExactInside outer inner := by
  rw [IsStringInside_iff, endAddr_of_noOverflow ho, endAddr_of_noOverflow hi]
  rfl

/-- Witness for C1 (amended) on a 23-byte view and a 7-byte view inside it. -/
theorem C1_inside_iff_exact_witness :
    NoOverflow 64 ⟨4096, bytesOf "PlaceboAspirinIbuprofen"⟩ ∧
      NoOverflow 64 ⟨4103, bytesOf "Aspirin"⟩ ∧
      (IsStringInside 64 ⟨4096, bytesOf "PlaceboAspirinIbuprofen"⟩ ⟨4103, bytesOf "Aspirin"⟩
          = true ↔
        ExactInside ⟨4096, bytesOf "PlaceboAspirinIbuprofen"⟩ ⟨4103, bytesOf "Aspirin"⟩) :=
  ⟨by decide, by decide, C1_inside_iff_exact 64 _ _ (by decide) (by decide)⟩

/-- C2: `IsStringInside A A` is true for every view `A`, whatever its start
address and length (the empty view included) and whatever the word size. -/
theorem C2_reflexive (w : Nat) (A : GoString) : IsStringInside w A A = true := by
  rw [IsStringInside_iff]
  exact ⟨Nat.le_refl _, Nat.le_refl _⟩

/-! ## Sub-ranges, disjoint views and empty views -/

/-- C3 (as stated, refuted): `topInner` is the sub-range `topOuter[0:2]`
(`0 <= 0 <= 0 + 2 <= len topOuter`, same start address, the first two bytes),
and `IsStringInside topOuter topInner` is `false` on 64-bit words. -/
theorem C3_subrange_fails_at_top :
    topOuter.WF 64 ∧ topInner.Data = topOuter.Data + 0 ∧
      topInner.bytes = (topOuter.bytes.drop 0).take 2 ∧
      0 + 2 ≤ topOuter.bytes.length ∧
      IsStringInside 64 topOuter topInner = false := by
  decide

/-- C3 (amended): for every view `A` whose end address does not overflow the
machine word and every sub-range `B = A[start : start+len]` with
`start + len <= len A` (so `B.start = A.start + start`, `B.length = len`),
`IsStringInside A B` is true. -/
theorem C3_subrange_inside (w : Nat) (A B : GoString) (start len : Nat)
    (hA : NoOverflow w A) (hrange : start + len ≤ A.bytes.length)
    (hstart : B.Data = A.Data + start) (hlen : B.bytes.length = len) :
    IsStringInside w A B = true := by
  have hB : NoOverflow w B := by
    unfold NoOverflow at hA ⊢
    omega
  rw [IsStringInside_iff, endAddr_of_noOverflow hA, endAddr_of_noOverflow hB]
  omega

/-- Witness for C3 (amended): the sub-range `[7, 14)` of a 23-byte view. -/
theorem C3_subrange_inside_witness :
    NoOverflow 64 (Big 4096) ∧ 7 + 7 ≤ (Big 4096).bytes.length ∧
      IsStringInside 64 (Big 4096) ⟨4103, bytesOf "Aspirin"⟩ = true :=
  ⟨by decide, by decide,
    C3_subrange_inside 64 (Big 4096) ⟨4103, bytesOf "Aspirin"⟩ 7 7
      (by decide) (by decide) (by decide) (by decide)⟩

/-- C4 (as stated, refuted): the 4-byte view `topOuter` at the top of a 64-bit
address space shares no address with the 7-byte view at address 4096, and
`IsStringInside` reports it as inside that view. -/
theorem C4_disjoint_fails_at_top :
    topOuter.WF 64 ∧ topOuter.bytes.length ≠ 0 ∧
      (∀ x, InRange ⟨4096, bytesOf "Placebo"⟩ x → ¬ InRange topOuter x) ∧
      IsStringInside 64 ⟨4096, bytesOf "Placebo"⟩ topOuter = true := by
  refine ⟨by decide, by decide, ?_, by decide⟩
  intro x hx hx2
  have h1 : x < 4096 + 7 := hx.2
  have h2 : 2 ^ 64 - 4 ≤ x := hx2.1
  omega

/-- C4 (amended): for every view `A` and every view `C` of nonzero length whose
end address does not overflow the machine word and whose address range shares
no address with the range of `A`, `IsStringInside A C` is false. -/
theorem C4_disjoint_not_inside (w : Nat) (A C : GoString)
    (hC : NoOverflow w C) (hlen : C.bytes.length ≠ 0)
    (hdisj : ∀ x, InRange A x → ¬ InRange C x) :
    IsStringInside w A C = false := by
  rw [Bool.eq_false_iff]
  intro h
  rw [IsStringInside_iff, endAddr_of_noOverflow hC, endAddr_eq] at h
  have hmod : (A.Data + A.bytes.length) % 2 ^ w ≤ A.Data + A.bytes.length :=
    Nat.mod_le _ _
  have hlen2 : 0 < C.bytes.length := Nat.pos_of_ne_zero hlen
  refine hdisj C.Data ⟨h.1, ?_⟩ ⟨Nat.le_refl _, ?_⟩ <;> omega

/-- Witness for C4 (amended): a 7-byte view that starts where a 23-byte view
ends. -/
theorem C4_disjoint_not_inside_witness :
    NoOverflow 64 ⟨4119, bytesOf "Placebo"⟩ ∧
      IsStringInside 64 (Big 4096) ⟨4119, bytesOf "Placebo"⟩ = false :=
  ⟨by decide,
    C4_disjoint_not_inside 64 (Big 4096) ⟨4119, bytesOf "Placebo"⟩ (by decide) (by decide)
      (by
        intro x hx hx2
        have h1 : x < 4096 + 23 := hx.2
        have h2 : 4119 ≤ x := hx2.1
        omega)⟩

/-- C5 (as stated, refuted): the address `2 ^ 64 - 2` lies between the start
and the end address of `topOuter`, and the empty view there is reported as not
inside `topOuter`. -/
theorem C5_empty_fails_at_top :
    topOuter.WF 64 ∧ topOuter.Data ≤ 2 ^ 64 - 2 ∧
      2 ^ 64 - 2 ≤ topOuter.Data + topOuter.bytes.length ∧
      IsStringInside 64 topOuter (emptyAt (2 ^ 64 - 2)) = false := by
  decide

/-- C5 (amended): for every view `A` whose end address does not overflow the
machine word and every address `p` with `A.start <= p <= A.start + len A`
(both ends included), the empty view at `p` is inside `A`. -/
theorem C5_empty_inside (w : Nat) (A : GoString) (p : Nat)
    (hA : NoOverflow w A) (hlo : A.Data ≤ p) (hhi : p ≤ A.Data + A.bytes.length) :
    IsStringInside w A (emptyAt p) = true := by
  have hE : NoOverflow w (emptyAt p) := by
    unfold NoOverflow at hA ⊢
    simp only [emptyAt, List.length_nil]
    omega
  rw [IsStringInside_iff, endAddr_of_noOverflow hA, endAddr_of_noOverflow hE]
  simp only [emptyAt, List.length_nil]
  omega

/-- Witness for C5 (amended): the empty view at the end address of a 23-byte
view. -/
theorem C5_empty_inside_witness :
    NoOverflow 64 (Big 4096) ∧ IsStringInside 64 (Big 4096) (emptyAt 4119) = true :=
  ⟨by decide, C5_empty_inside 64 (Big 4096) 4119 (by decide) (by decide) (by decide)⟩

/-! ## Order properties -/

/-- C6: `IsStringInside` is transitive: if `B` is inside `A` and `C` is inside
`B` then `C` is inside `A`. It holds for all views and every word size, so in
particular for views into one common backing allocation. -/
theorem C6_transitive (w : Nat) (A B C : GoString)
    (hAB : IsStringInside w A B = true) (hBC : IsStringInside w B C = true) :
    IsStringInside w A C = true := by
  rw [IsStringInside_iff] at hAB hBC ⊢
  exact ⟨Nat.le_trans hAB.1 hBC.1, Nat.le_trans hBC.2 hAB.2⟩

/-- Witness for C6: a 23-byte view, its first 14 bytes, and bytes `[7, 14)`. -/
theorem C6_transitive_witness :
    IsStringInside 64 (Big 4096) ⟨4103, bytesOf "Aspirin"⟩ = true :=
  C6_transitive 64 (Big 4096) ⟨4096, bytesOf "PlaceboAspirin"⟩ ⟨4103, bytesOf "Aspirin"⟩
    (by decide) (by decide)

/-! ## The concrete scenario -/

/-- C7 (as stated, refuted): stored in the last 23 bytes of a 64-bit address
space, `Big[0:7]` is the view `"Placebo"` at the address of `Big`, and
`IsStringInside Big Big[0:7]` is `false`. -/
theorem C7_scenario_fails_at_top :
    (Big (2 ^ 64 - 23)).WF 64 ∧
      slice 64 (Big (2 ^ 64 - 23)) 0 7 = some ⟨2 ^ 64 - 23, bytesOf "Placebo"⟩ ∧
      IsStringInside 64 (Big (2 ^ 64 - 23)) ⟨2 ^ 64 - 23, bytesOf "Placebo"⟩ = false := by
  decide

/-- C7 (amended): for `Big = "PlaceboAspirinIbuprofen"` stored at an address
`a` with `a + 23 < 2 ^ w`, the slices `S1 = Big[0:7]` and `S2 = Big[7:14]` are
the views `"Placebo"` at `a` and `"Aspirin"` at `a + 7`, and `IsStringInside`
is true of `(Big, S1)` and of `(Big, S2)`. This is what `createConstStrings`
does: whenever it completes on a table whose end address does not overflow,
`constAll` is the table and every named constant is the sub-range of `constAll`
that `Pill.String` takes, which `IsStringInside` finds inside `constAll`. -/
theorem C7_scenario (w a : Nat) (ha : a + 23 < 2 ^ w) :
    slice w (Big a) 0 7 = some ⟨a, bytesOf "Placebo"⟩ ∧
      slice w (Big a) 7 14 = some ⟨a + 7, bytesOf "Aspirin"⟩ ∧
      IsStringInside w (Big a) ⟨a, bytesOf "Placebo"⟩ = true ∧
      IsStringInside w (Big a) ⟨a + 7, bytesOf "Aspirin"⟩ = true ∧
      ∀ (name : GoString) (idx : List Nat) (g g2 : Globals),
        NoOverflow w name → createConstStrings w name idx g = some g2 →
          g2.constAll = name ∧
            ∀ (p : Pill) (s : GoString),
              (p, s) ∈ [(Placebo, g2.constPlacebo), (Aspirin, g2.constAspirin),
                (Ibuprofen, g2.constIbuprofen), (Paracetamol, g2.constParacetamol),
                (Acetaminophen, g2.constAcetaminophen)] →
              Pill.String w g2.constAll idx p = some s ∧
                IsStringInside w g2.constAll s = true := by
  have hlen : (Big a).bytes.length = 23 :=
    (by decide : (bytesOf "PlaceboAspirinIbuprofen").length = 23)
  have hdata : (Big a).Data = a := rfl
  have hBig : NoOverflow w (Big a) := by
    unfold NoOverflow
    omega
  have h1 : slice w (Big a) 0 7 = some ⟨a, bytesOf "Placebo"⟩ := by
    have hmod : (a + 0) % 2 ^ w = a := Nat.mod_eq_of_lt (by omega)
    have hb : (List.drop 0 (Big a).bytes).take (7 - 0) = bytesOf "Placebo" :=
      (by decide : (List.drop 0 (bytesOf "PlaceboAspirinIbuprofen")).take (7 - 0)
        = bytesOf "Placebo")
    have hc : 0 ≤ 7 ∧ 7 ≤ (Big a).bytes.length := by rw [hlen]; decide
    unfold slice
    rw [if_pos hc, hb, if_neg (by decide)]
    simp only [uintptrAdd, hmod, Big]
  have h2 : slice w (Big a) 7 14 = some ⟨a + 7, bytesOf "Aspirin"⟩ := by
    have hmod : (a + 7) % 2 ^ w = a + 7 := Nat.mod_eq_of_lt (by omega)
    have hb : (List.drop 7 (Big a).bytes).take (14 - 7) = bytesOf "Aspirin" :=
      (by decide : (List.drop 7 (bytesOf "PlaceboAspirinIbuprofen")).take (14 - 7)
        = bytesOf "Aspirin")
    have hc : 7 ≤ 14 ∧ 14 ≤ (Big a).bytes.length := by rw [hlen]; decide
    unfold slice
    rw [if_pos hc, hb, if_neg (by decide)]
    simp only [uintptrAdd, hmod, Big]
  refine ⟨h1, h2, inside_of_slice hBig h1, inside_of_slice hBig h2, ?_⟩
  intro name idx g g2 hname hrun
  obtain ⟨hall, p1, p2, p3, p4, p5⟩ := createConstStrings_some hrun
  rw [hall]
  refine ⟨rfl, ?_⟩
  intro p s hmem
  have hp : Pill.String w name idx p = some s := by
    simp only [List.mem_cons, Prod.mk.injEq, List.mem_nil_iff, or_false] at hmem
    rcases hmem with ⟨rfl, rfl⟩ | ⟨rfl, rfl⟩ | ⟨rfl, rfl⟩ | ⟨rfl, rfl⟩ | ⟨rfl, rfl⟩
    · exact p1
    · exact p2
    · exact p3
    · exact p4
    · exact p5
  obtain ⟨lo, hi, hs⟩ := PillString_some hp
  exact ⟨hp, inside_of_slice hname hs⟩

/-- Witness for C7 (amended): `Big` at address 4096 on 64-bit words, and
`createConstStrings` run on a five-name table at the same address. -/
theorem C7_scenario_witness :
    4096 + 23 < 2 ^ 64 ∧
      IsStringInside 64 (Big 4096) ⟨4096, bytesOf "Placebo"⟩ = true ∧
      IsStringInside 64 (Big 4096) ⟨4096 + 7, bytesOf "Aspirin"⟩ = true ∧
      ∃ g2, createConstStrings 64 (pillTable 4096) pillIndex Globals.zero = some g2 ∧
        g2.constAcetaminophen = ⟨4130, bytesOf "Acetaminophen"⟩ ∧
        IsStringInside 64 g2.constAll g2.constAcetaminophen = true := by
  have h := C7_scenario 64 4096 (by decide)
  have hrun : createConstStrings 64 (pillTable 4096) pillIndex Globals.zero =
      some ⟨pillTable 4096, ⟨4096, bytesOf "Placebo"⟩, ⟨4103, bytesOf "Aspirin"⟩,
        ⟨4110, bytesOf "Ibuprofen"⟩, ⟨4119, bytesOf "Paracetamol"⟩,
        ⟨4130, bytesOf "Acetaminophen"⟩⟩ := by
    decide
  refine ⟨by decide, h.2.2.1, h.2.2.2.1, _, hrun, rfl, ?_⟩
  exact ((h.2.2.2.2 _ _ _ _ (by decide) hrun).2 Acetaminophen _ (by simp)).2

/-! ## Content independence -/

/-- C8: the result of `IsStringInside` depends only on the start addresses and
lengths of its arguments: two pairs of views that agree on start address and
length give the same result, whatever their bytes. -/
theorem C8_content_independent (w : Nat) (outer1 inner1 outer2 inner2 : GoString)
    (hoD : outer1.Data = outer2.Data)
    (hoL : outer1.bytes.length = outer2.bytes.length)
    (hiD : inner1.Data = inner2.Data)
    (hiL : inner1.bytes.length = inner2.bytes.length) :
    IsStringInside w outer1 inner1 = IsStringInside w outer2 inner2 := by
  rw [Bool.eq_iff_iff, IsStringInside_iff, IsStringInside_iff]
  simp only [endAddr_eq, hoD, hoL, hiD, hiL]

/-- Witness for C8: two pairs with equal addresses and lengths and different
bytes. -/
theorem C8_content_independent_witness :
    (bytesOf "Placebo" ≠ bytesOf "Aspirin") ∧
      IsStringInside 64 (Big 4096) ⟨4103, bytesOf "Placebo"⟩ =
        IsStringInside 64 ⟨4096, bytesOf "IbuprofenAspirinPlacebo"⟩
          ⟨4103, bytesOf "Aspirin"⟩ :=
  ⟨by decide,
    C8_content_independent 64 (Big 4096) ⟨4103, bytesOf "Placebo"⟩
      ⟨4096, bytesOf "IbuprofenAspirinPlacebo"⟩ ⟨4103, bytesOf "Aspirin"⟩
      (by decide) (by decide) (by decide) (by decide)⟩

/-! ## Address check against offset check -/

/-- C9 (as stated, refuted): a 4-byte buffer in the last 4 bytes of a 64-bit
address space, with the views `A = (0, 4)` and `B = (0, 2)` into it: the offset
check holds and `IsStringInside` returns `false`. -/
theorem C9_offset_check_fails_at_top :
    (2 ^ 64 - 4) + [80, 105, 108, 108].length ≤ 2 ^ 64 ∧
      (⟨0, 4⟩ : OffsetView).off + (⟨0, 4⟩ : OffsetView).len ≤ [80, 105, 108, 108].length ∧
      (⟨0, 2⟩ : OffsetView).off + (⟨0, 2⟩ : OffsetView).len ≤ [80, 105, 108, 108].length ∧
      offsetInside ⟨0, 4⟩ ⟨0, 2⟩ = true ∧
      IsStringInside 64 (viewAt (2 ^ 64 - 4) [80, 105, 108, 108] ⟨0, 4⟩)
        (viewAt (2 ^ 64 - 4) [80, 105, 108, 108] ⟨0, 2⟩) = false := by
  decide

/-- C9 (amended): for every buffer of `n` bytes at base address `b` with
`b + n < 2 ^ w` and every two views `A = (b + oa, la)` and `B = (b + ob, lb)`
into it with `oa + la <= n` and `ob + lb <= n`, `IsStringInside A B` is true
if and only if `oa <= ob` and `ob + lb <= oa + la`. -/
theorem C9_address_check_eq_offset_check (w b : Nat) (buf : List UInt8) (A B : OffsetView)
    (hb : b + buf.length < 2 ^ w)
    (hA : A.off + A.len ≤ buf.length) (hB : B.off + B.len ≤ buf.length) :
    (viewAt b buf A).Data = b + A.off ∧ (viewAt b buf A).bytes.length = A.len ∧
      (viewAt b buf B).Data = b + B.off ∧ (viewAt b buf B).bytes.length = B.len ∧
      (IsStringInside w (viewAt b buf A) (viewAt b buf B) = true ↔
        A.off ≤ B.off ∧ B.off + B.len ≤ A.off + A.len) ∧
      IsStringInside w (viewAt b buf A) (viewAt b buf B) = offsetInside A B := by
  have hAlen : (viewAt b buf A).bytes.length = A.len := by
    simp only [viewAt, List.length_take, List.length_drop]
    omega
  have hBlen : (viewAt b buf B).bytes.length = B.len := by
    simp only [viewAt, List.length_take, List.length_drop]
    omega
  have hAd : (viewAt b buf A).Data = b + A.off := rfl
  have hBd : (viewAt b buf B).Data = b + B.off := rfl
  have hAo : NoOverflow w (viewAt b buf A) := by
    unfold NoOverflow
    omega
  have hBo : NoOverflow w (viewAt b buf B) := by
    unfold NoOverflow
    omega
  have hiff : IsStringInside w (viewAt b buf A) (viewAt b buf B) = true ↔
      A.off ≤ B.off ∧ B.off + B.len ≤ A.off + A.len := by
    rw [IsStringInside_iff, endAddr_of_noOverflow hAo, endAddr_of_noOverflow hBo,
      hAlen, hBlen, hAd, hBd]
    omega
  refine ⟨hAd, hAlen, hBd, hBlen, hiff, ?_⟩
  rw [Bool.eq_iff_iff, hiff]
  simp [offsetInside]

/-- Witness for C9 (amended): the views `(0, 14)` and `(7, 7)` into a 23-byte
buffer at address 4096. -/
theorem C9_address_check_eq_offset_check_witness :
    4096 + (bytesOf "PlaceboAspirinIbuprofen").length < 2 ^ 64 ∧
      IsStringInside 64 (viewAt 4096 (bytesOf "PlaceboAspirinIbuprofen") ⟨0, 14⟩)
        (viewAt 4096 (bytesOf "PlaceboAspirinIbuprofen") ⟨7, 7⟩) = offsetInside ⟨0, 14⟩ ⟨7, 7⟩ :=
  ⟨by decide,
    (C9_address_check_eq_offset_check 64 4096 (bytesOf "PlaceboAspirinIbuprofen")
      ⟨0, 14⟩ ⟨7, 7⟩ (by decide) (by decide) (by decide)).2.2.2.2.2⟩

/-! ## Frame: calls do not touch the program state -/

theorem exec_assign_writes_global (w : Nat) (g : Globals) (A B : GoString) :
    exec w (.assign .constAll .inner :: IsStringInsideBody) ⟨g, A, B⟩ ⟨none, none⟩ =
      some (IsStringInside w A B, ⟨{ g with constAll := B }, A, B⟩) := by
  simp only [exec, IsStringInsideBody, BoolExpr.value, WordExpr.value, Pointers.get,
    Pointers.set, Store.read, Store.write, Option.map_some', IsStringInside]
  cases h : decide (A.header.Data ≤ B.header.Data) <;> simp [h]

theorem exec_IsStringInsideBody (w : Nat) (g : Globals) (A B : GoString) :
    exec w IsStringInsideBody ⟨g, A, B⟩ ⟨none, none⟩ =
      some (IsStringInside w A B, ⟨g, A, B⟩) := by
  simp only [exec, IsStringInsideBody, BoolExpr.value, WordExpr.value, Pointers.get,
    Pointers.set, Store.read, Option.map_some', IsStringInside]
  cases h : decide (A.header.Data ≤ B.header.Data) <;> simp [h]

theorem IsStringInsideStep_eq (w : Nat) (g : Globals) (A B : GoString) :
    IsStringInsideStep w g A B = some (IsStringInside w A B, g) := by
  unfold IsStringInsideStep
  rw [exec_IsStringInsideBody]
  rfl

theorem runChecks_eq (w : Nat) (g : Globals) (checks : List (GoString × GoString)) :
    runChecks w g checks = some (checks.map (fun c => IsStringInside w c.1 c.2), g) := by
  induction checks with
  | nil => rfl
  | cons c rest ih =>
    obtain ⟨outer, inner⟩ := c
    simp [runChecks, IsStringInsideStep_eq, ih]

/-- C10: a call of `IsStringInside`, run statement by statement on the
package-level variables and its two parameters, always returns, gives the
value computed from its two arguments alone and leaves every package-level
variable as it was. So any sequence of checks leaves the variables unchanged,
and after any sequence of other checks the call on `(A, B)` returns what it
returns when run first. -/
theorem C10_order_independent (w : Nat) (g g0 : Globals)
    (before : List (GoString × GoString)) (A B : GoString) :
    IsStringInsideStep w g A B = some (IsStringInside w A B, g) ∧
      (IsStringInsideStep w g0 A B).map (fun r => r.1) =
        (IsStringInsideStep w g A B).map (fun r => r.1) ∧
      runChecks w g before = some (before.map (fun c => IsStringInside w c.1 c.2), g) ∧
      (runChecks w g before).bind (fun r => IsStringInsideStep w r.2 A B) =
        IsStringInsideStep w g A B ∧
      runChecks w g (before ++ [(A, B)]) =
        some (before.map (fun c => IsStringInside w c.1 c.2) ++ [IsStringInside w A B], g) := by
  refine ⟨IsStringInsideStep_eq w g A B, ?_, runChecks_eq w g before, ?_, ?_⟩
  · rw [IsStringInsideStep_eq, IsStringInsideStep_eq]
    rfl
  · rw [runChecks_eq]
    rfl
  · rw [runChecks_eq, List.map_append]
    rfl

/-! ## Machine-word behaviour -/

/-- C12: `IsStringInside` computes both end addresses as `Data + uintptr(Len)`,
that is modulo `2 ^ w`: for all views the returned value is the comparison of
the start addresses and of the sums reduced modulo `2 ^ w`. For every pair of
views whose end addresses do not overflow the word, the returned value equals
the exact-integer predicate `outer.start <= inner.start` and
`inner.start + inner.length <= outer.start + outer.length`. -/
theorem C12_machine_word_arithmetic (w : Nat) (outer inner : GoString) :
    IsStringInside w outer inner =
        decide (outer.Data ≤ inner.Data ∧
          (inner.Data + inner.bytes.length) % 2 ^ w
            ≤ (outer.Data + outer.bytes.length) % 2 ^ w) ∧
      (outer.Data + outer.bytes.length < 2 ^ w →
        inner.Data + inner.bytes.length < 2 ^ w →
        IsStringInside w outer inner =
          decide (outer.Data ≤ inner.Data ∧
            inner.Data + inner.bytes.length ≤ outer.Data + outer.bytes.length)) := by
  constructor
  · rw [Bool.eq_iff_iff, IsStringInside_iff, endAddr_eq, endAddr_eq, decide_eq_true_iff]
  · intro ho hi
    rw [Bool.eq_iff_iff, IsStringInside_iff, endAddr_eq, endAddr_eq, decide_eq_true_iff,
      Nat.mod_eq_of_lt ho, Nat.mod_eq_of_lt hi]

/-- Witness for C12. On 64-bit words the end address of `topOuter` wraps to 0,
so the check on `(topOuter, topInner)` is the comparison `2 ^ 64 - 2 <= 0`
and returns `false`. On 32-bit words, without overflow, a 14-byte view that
starts inside a 23-byte view and ends after it is rejected by the comparison
of the end addresses, and a 7-byte view inside it is accepted. -/
theorem C12_machine_word_arithmetic_witness :
    ((topOuter.Data + topOuter.bytes.length) % 2 ^ 64 = 0 ∧
        (topInner.Data + topInner.bytes.length) % 2 ^ 64 = 2 ^ 64 - 2 ∧
        IsStringInside 64 topOuter topInner =
          decide (topOuter.Data ≤ topInner.Data ∧
            (topInner.Data + topInner.bytes.length) % 2 ^ 64
              ≤ (topOuter.Data + topOuter.bytes.length) % 2 ^ 64) ∧
        IsStringInside 64 topOuter topInner = false) ∧
      ((Big 4096).Data + (Big 4096).bytes.length < 2 ^ 32 ∧
        4110 + (bytesOf "PlaceboAspirin").length < 2 ^ 32 ∧
        (Big 4096).Data ≤ 4110 ∧
        IsStringInside 32 (Big 4096) ⟨4110, bytesOf "PlaceboAspirin"⟩ =
          decide ((Big 4096).Data ≤ 4110 ∧
            4110 + (bytesOf "PlaceboAspirin").length
              ≤ (Big 4096).Data + (Big 4096).bytes.length) ∧
        IsStringInside 32 (Big 4096) ⟨4110, bytesOf "PlaceboAspirin"⟩ = false) ∧
      (IsStringInside 32 (Big 4096) ⟨4103, bytesOf "Aspirin"⟩ =
          decide ((Big 4096).Data ≤ 4103 ∧
            4103 + (bytesOf "Aspirin").length
              ≤ (Big 4096).Data + (Big 4096).bytes.length) ∧
        IsStringInside 32 (Big 4096) ⟨4103, bytesOf "Aspirin"⟩ = true) :=
  ⟨⟨by decide, by decide, (C12_machine_word_arithmetic 64 topOuter topInner).1, by decide⟩,
    ⟨by decide, by decide, by decide,
      (C12_machine_word_arithmetic 32 (Big 4096) ⟨4110, bytesOf "PlaceboAspirin"⟩).2
        (by decide) (by decide),
      by decide⟩,
    ⟨(C12_machine_word_arithmetic 32 (Big 4096) ⟨4103, bytesOf "Aspirin"⟩).2
        (by decide) (by decide),
      by decide⟩⟩

/-- C13: antisymmetry. For two views `A` and `B` whose lengths are non-negative
`int`s (below `2 ^ (w - 1)`), if `IsStringInside A B` and `IsStringInside B A`
are both true then `A` and `B` have the same start address and the same
length, hence the same string header. -/
theorem C13_antisymmetric (w : Nat) (A B : GoString)
    (hA : A.bytes.length < 2 ^ (w - 1)) (hB : B.bytes.length < 2 ^ (w - 1))
    (hAB : IsStringInside w A B = true) (hBA : IsStringInside w B A = true) :
    A.Data = B.Data ∧ A.bytes.length = B.bytes.length ∧ A.header = B.header := by
  rw [IsStringInside_iff, endAddr_eq, endAddr_eq] at hAB hBA
  have hD : A.Data = B.Data := Nat.le_antisymm hAB.1 hBA.1
  have hpow : 2 ^ (w - 1) ≤ 2 ^ w := Nat.pow_le_pow_right (by decide) (Nat.sub_le w 1)
  have hmod : (A.Data + A.bytes.length) % 2 ^ w = (A.Data + B.bytes.length) % 2 ^ w := by
    have h := Nat.le_antisymm hBA.2 hAB.2
    rw [hD] at h ⊢
    exact h
  have hcong : A.bytes.length ≡ B.bytes.length [MOD 2 ^ w] :=
    Nat.ModEq.add_left_cancel' A.Data hmod
  have hL : A.bytes.length = B.bytes.length :=
    Nat.ModEq.eq_of_lt_of_lt hcong (Nat.lt_of_lt_of_le hA hpow) (Nat.lt_of_lt_of_le hB hpow)
  refine ⟨hD, hL, ?_⟩
  simp only [GoString.header, GoString.len, hD, hL]

/-- Witness for C13: two views of 7 bytes at one address, with different
bytes. -/
theorem C13_antisymmetric_witness :
    IsStringInside 64 ⟨4096, bytesOf "Placebo"⟩ ⟨4096, bytesOf "Aspirin"⟩ = true ∧
      IsStringInside 64 ⟨4096, bytesOf "Aspirin"⟩ ⟨4096, bytesOf "Placebo"⟩ = true ∧
      (⟨4096, bytesOf "Placebo"⟩ : GoString).header =
        (⟨4096, bytesOf "Aspirin"⟩ : GoString).header :=
  ⟨by decide, by decide,
    (C13_antisymmetric 64 ⟨4096, bytesOf "Placebo"⟩ ⟨4096, bytesOf "Aspirin"⟩
      (by decide) (by decide) (by decide) (by decide)).2.2⟩

/-- C14: for two views `A` and `B` whose end addresses do not overflow the
machine word, if `IsStringInside A B` is true then `len B <= len A`; and when
`A` is empty, `B` is the empty view at the address of `A`. -/
theorem C14_inner_not_longer (w : Nat) (A B : GoString)
    (hA : A.Data + A.bytes.length < 2 ^ w) (hB : B.Data + B.bytes.length < 2 ^ w)
    (h : IsStringInside w A B = true) :
    B.bytes.length ≤ A.bytes.length ∧
      (A.bytes.length = 0 → B.Data = A.Data ∧ B.bytes.length = 0) := by
  rw [IsStringInside_iff, endAddr_eq, endAddr_eq, Nat.mod_eq_of_lt hA,
    Nat.mod_eq_of_lt hB] at h
  constructor
  · omega
  · intro h0
    omega

/-- Witness for C14: a 7-byte view inside a 23-byte view, and an empty view
inside the empty view at the same address. -/
theorem C14_inner_not_longer_witness :
    (IsStringInside 64 (Big 4096) ⟨4103, bytesOf "Aspirin"⟩ = true ∧
        (bytesOf "Aspirin").length ≤ (Big 4096).bytes.length) ∧
      (IsStringInside 64 (emptyAt 4096) (emptyAt 4096) = true ∧
        (emptyAt 4096).Data = 4096 ∧ (emptyAt 4096).bytes.length = 0) :=
  ⟨⟨by decide,
      (C14_inner_not_longer 64 (Big 4096) ⟨4103, bytesOf "Aspirin"⟩
        (by decide) (by decide) (by decide)).1⟩,
    ⟨by decide,
      (C14_inner_not_longer 64 (emptyAt 4096) (emptyAt 4096)
        (by decide) (by decide) (by decide)).2 (by decide)⟩⟩

/-! ## Output of the driver -/

theorem runeCountFrom_ascii (s : List UInt8) (h : ∀ b ∈ s, b.toNat < 128) :
    runeCountFrom 0 s = s.length := by
  induction s with
  | nil => rfl
  | cons c rest ih =>
    have hc : c.toNat < 128 := h c (List.mem_cons_self c rest)
    have hrest : ∀ b ∈ rest, b.toNat < 128 := fun b hb => h b (List.mem_cons_of_mem c hb)
    have hstep : runeStep (c :: rest) = 1 := by
      simp only [runeStep]
      rw [if_pos hc]
    rw [runeCountFrom, hstep, ih hrest, List.length_cons]
    omega

theorem Printf_line (s : GoString) (b : Bool) :
    Printf "%-15s: %v\n" [.str s, .bool b] =
      some (s.bytes ++ List.replicate (15 - runeCount s.bytes) 32 ++ [58, 32] ++
        fmtBoolean b ++ [10]) := by
  have hf : bytesOf "%-15s: %v\n" = [37, 45, 49, 53, 115, 58, 32, 37, 118, 10] := by decide
  unfold Printf
  rw [hf]
  simp [doPrintf, printVerb, padString, UInt8.size]

theorem printChecks_eq (w : Nat) (constAll : GoString) (strlist : List GoString)
    (out : List UInt8) :
    printChecks w constAll strlist out =
      some (out ++ strlist.flatMap (fun s =>
        s.bytes ++ List.replicate (15 - runeCount s.bytes) 32 ++ [58, 32] ++
          fmtBoolean (IsStringInside w constAll s) ++ [10])) := by
  induction strlist generalizing out with
  | nil => simp [printChecks]
  | cons s rest ih =>
    rw [printChecks, Printf_line, Option.some_bind, ih]
    simp [List.flatMap_cons, List.append_assoc]

/-- C11: when the setup completes, `main` writes one line per entry of its
sample list of 8 strings (`"Penn"`, `"Teller"`, `constAll` and the five named
constants), in list order and nothing else. Each line is the whole string of
the entry, then spaces up to a width of 15 characters when it is shorter (for
an ASCII string, up to 15 bytes), then `": "`, then `"true"` or `"false"`
according to `IsStringInside constAll entry`, then a newline. -/
theorem C11_main_output (w : Nat) (Pill_name : GoString) (Pill_index : List Nat)
    (pennAddr tellerAddr : Nat) (g g1 : Globals)
    (hsetup : createConstStrings w Pill_name Pill_index g = some g1) :
    main w Pill_name Pill_index pennAddr tellerAddr g =
        some (List.flatMap
          [⟨pennAddr, bytesOf "Penn"⟩, ⟨tellerAddr, bytesOf "Teller"⟩, g1.constAll,
            g1.constPlacebo, g1.constAspirin, g1.constIbuprofen, g1.constParacetamol,
            g1.constAcetaminophen]
          (fun s =>
            s.bytes ++ List.replicate (15 - runeCount s.bytes) 32 ++ bytesOf ": " ++
              (if IsStringInside w g1.constAll s = true then bytesOf "true"
                else bytesOf "false") ++ bytesOf "\n"), g1) ∧
      ∀ s : GoString, (∀ b ∈ s.bytes, b.toNat < 128) → runeCount s.bytes = s.bytes.length := by
  have hsep : bytesOf ": " = [58, 32] := by decide
  have hnl : bytesOf "\n" = [10] := by decide
  refine ⟨?_, fun s hs => runeCountFrom_ascii s.bytes hs⟩
  unfold main
  rw [hsetup, Option.some_bind]
  simp only [printChecks_eq, hsep, hnl, Option.map_some', List.nil_append, fmtBoolean]

set_option maxRecDepth 100000 in
/-- Witness for C11: the run on a five-name table at address 4096 with the two
literals at addresses 8192 and 8200, on 64-bit words, and the text it
writes. -/
theorem C11_main_output_witness :
    createConstStrings 64 (pillTable 4096) pillIndex Globals.zero =
        some ⟨pillTable 4096, ⟨4096, bytesOf "Placebo"⟩, ⟨4103, bytesOf "Aspirin"⟩,
          ⟨4110, bytesOf "Ibuprofen"⟩, ⟨4119, bytesOf "Paracetamol"⟩,
          ⟨4130, bytesOf "Acetaminophen"⟩⟩ ∧
      (main 64 (pillTable 4096) pillIndex 8192 8200 Globals.zero).map (fun r => r.1) =
        some (bytesOf ("Penn           : false\nTeller         : false\n" ++
          "PlaceboAspirinIbuprofenParacetamolAcetaminophen: true\n" ++
          "Placebo        : true\nAspirin        : true\nIbuprofen      : true\n" ++
          "Paracetamol    : true\nAcetaminophen  : true\n")) ∧
      (main 64 (pillTable 4096) pillIndex 8192 8200 Globals.zero).isSome = true := by
  have hrun : createConstStrings 64 (pillTable 4096) pillIndex Globals.zero =
      some ⟨pillTable 4096, ⟨4096, bytesOf "Placebo"⟩, ⟨4103, bytesOf "Aspirin"⟩,
        ⟨4110, bytesOf "Ibuprofen"⟩, ⟨4119, bytesOf "Paracetamol"⟩,
        ⟨4130, bytesOf "Acetaminophen"⟩⟩ := by
    decide
  have h := (C11_main_output 64 (pillTable 4096) pillIndex 8192 8200 Globals.zero _ hrun).1
  refine ⟨hrun, by decide, ?_⟩
  rw [h]
  rfl

end StringConst
